import Mathlib

/-!
Verification development for the mermaid-formatter repository.

The TypeScript sources (src/rules.ts, src/parser.ts, src/formatter.ts,
src/index.ts) are embedded shallowly: strings are modelled as `List Char`
(wrapped in `String` at the API boundary), JS regular expressions are
replaced by hand-written matchers that reproduce the regex backtracking
semantics on the inputs the code feeds them (single lines, which never
contain a line feed), and the mutable loops of `parse` and `format`
become explicit structural recursions that thread the same state.

Conventions used throughout:
* the classifier's open-block stack keeps its top at the HEAD of the
  list (the TypeScript array pushes/pops at the end; the two views are
  mirror images and `topBlockKind` reads the same element);
* `\x7b` / `\x7d` denote the literal brace characters;
* a few recursions that the source expresses as index-based `while`
  loops take a fuel argument that is always called with fuel at least
  the length of the scanned list, so the fuel never runs out.
-/

/-! ## Character classes (ECMAScript) -/

/-- White space as recognized by JS `String.prototype.trim` and by the
regex class `\s` (WhiteSpace plus LineTerminator code points). -/
def jsWsChars : List Char :=
  ['\t', '\x0b', '\x0c', ' ', '\u00A0', '\uFEFF',
   '\u1680', '\u2000', '\u2001', '\u2002', '\u2003', '\u2004', '\u2005',
   '\u2006', '\u2007', '\u2008', '\u2009', '\u200A', '\u202F', '\u205F',
   '\u3000', '\n', '\r', '\u2028', '\u2029']

def isJsWs (c : Char) : Bool := jsWsChars.contains c

/-- Characters the regex `.` does NOT match (LineTerminator code points). -/
def dotOk (c : Char) : Bool :=
  !(c = '\n' || c = '\r' || c = '\u2028' || c = '\u2029')

/-- Word characters for the regex `\b` boundary: `[A-Za-z0-9_]`. -/
def isWordChar (c : Char) : Bool :=
  ('a' ≤ c && c ≤ 'z') || ('A' ≤ c && c ≤ 'Z') || ('0' ≤ c && c ≤ '9') || c = '_'

/-- JS `String.prototype.trim` on a char list. -/
def jsTrimL (cs : List Char) : List Char :=
  ((cs.dropWhile isJsWs).reverse.dropWhile isJsWs).reverse

/-- JS `input.split('\n')`: pieces between line feeds, keeping empty pieces
(`""` splits to `[""]`, a trailing separator yields a trailing `""`). -/
def splitNlL : List Char → List (List Char)
  | [] => [[]]
  | c :: cs =>
    if c = '\n' then [] :: splitNlL cs
    else
      match splitNlL cs with
      | [] => [[c]]
      | l :: ls => (c :: l) :: ls

/-- Test for the regex `^kw\b` (all keywords used end in a word character,
so the pattern holds iff `kw` is a prefix and the next character, if any,
is not a word character). -/
def kwMatch : List Char → List Char → Bool
  | [], rest =>
    match rest with
    | [] => true
    | c :: _ => !(isWordChar c)
  | _ :: _, [] => false
  | k :: ks, c :: cs => k = c && kwMatch ks cs

/-- Test for the case-insensitive regex `^note\b/i` (ASCII folding). -/
def noteMatch (cs : List Char) : Bool :=
  match cs with
  | n :: o :: t :: e :: rest =>
    n.toLower = 'n' && o.toLower = 'o' && t.toLower = 't' && e.toLower = 'e' &&
    (match rest with
     | [] => true
     | c :: _ => !(isWordChar c))
  | _ => false

/-! ## Data model (types.ts) -/

inductive DiagramType where
  | sequenceDiagram | flowchart | graph | classDiagram
  | stateDiagram | stateDiagramV2 | erDiagram | journey | gantt | pie
  | quadrantChart | requirementDiagram | gitGraph | mindmap | timeline
  | sankeyBeta | xychartBeta | blockBeta | architectureBeta | unknown
  deriving DecidableEq, Repr

inductive BlockKind where
  | critical | alt | loop | par | opt | break_ | rect | subgraph
  deriving DecidableEq, Repr

inductive BraceBlockKind where
  | state | class_ | namespace_
  deriving DecidableEq, Repr

inductive StatementType where
  | diagramDecl | directive | participant | blockStart | braceBlockStart
  | blockOption | blockElse | blockAnd | blockEnd | braceBlockEnd
  | note | comment | arrowMessage | genericLine | blankLine
  deriving DecidableEq, Repr

inductive Statement where
  | diagramDecl (diagramType : DiagramType) (content : String)
  | directive (content : String)
  | comment (content : String)
  | participant (content : String)
  | note (content : String)
  | blockStart (blockKind : BlockKind) (label : Option String) (content : String)
  | braceBlockStart (blockKind : BraceBlockKind) (name : String) (content : String)
  | blockOption (label : Option String) (content : String)
  | blockElse (label : Option String) (content : String)
  | blockAnd (label : Option String) (content : String)
  | blockEnd (content : String)
  | braceBlockEnd (content : String)
  | arrowMessage (from_ arrow to_ message content : String)
  | genericLine (content : String)
  | blankLine (content : String)
  deriving DecidableEq, Repr

instance : Inhabited Statement := ⟨.genericLine ""⟩

def stmtType : Statement → StatementType
  | .diagramDecl _ _ => .diagramDecl
  | .directive _ => .directive
  | .comment _ => .comment
  | .participant _ => .participant
  | .note _ => .note
  | .blockStart _ _ _ => .blockStart
  | .braceBlockStart _ _ _ => .braceBlockStart
  | .blockOption _ _ => .blockOption
  | .blockElse _ _ => .blockElse
  | .blockAnd _ _ => .blockAnd
  | .blockEnd _ => .blockEnd
  | .braceBlockEnd _ => .braceBlockEnd
  | .arrowMessage _ _ _ _ _ => .arrowMessage
  | .genericLine _ => .genericLine
  | .blankLine _ => .blankLine

def Statement.content : Statement → String
  | .diagramDecl _ c => c
  | .directive c => c
  | .comment c => c
  | .participant c => c
  | .note c => c
  | .blockStart _ _ c => c
  | .braceBlockStart _ _ c => c
  | .blockOption _ c => c
  | .blockElse _ c => c
  | .blockAnd _ c => c
  | .blockEnd c => c
  | .braceBlockEnd c => c
  | .arrowMessage _ _ _ _ c => c
  | .genericLine c => c
  | .blankLine c => c

structure Diagram where
  type : DiagramType
  statements : List Statement
  deriving Repr

/-- Formatting options; unset fields take the formatter's defaults. -/
structure FormatOptions where
  indentSize : Option Nat := none
  useTabs : Option Bool := none

/-! ## Rule registry (rules.ts) -/

/-- Ordered dialect signatures from `DIAGRAM_PATTERNS`.  Each JS pattern
`^kw(optional group)?\b` tests true on a line iff the line starts with
`kw` followed by a word boundary (the optional direction/showData groups
begin with `\s+`, so they can never rescue a failed boundary), hence a
keyword-plus-boundary test is an exact translation of `pattern.test`. -/
def DIAGRAM_PATTERNS : List (String × DiagramType) :=
  [("sequenceDiagram", .sequenceDiagram),
   ("flowchart", .flowchart),
   ("graph", .graph),
   ("classDiagram", .classDiagram),
   ("stateDiagram-v2", .stateDiagramV2),
   ("stateDiagram", .stateDiagram),
   ("erDiagram", .erDiagram),
   ("journey", .journey),
   ("gantt", .gantt),
   ("pie", .pie),
   ("quadrantChart", .quadrantChart),
   ("requirementDiagram", .requirementDiagram),
   ("gitGraph", .gitGraph),
   ("mindmap", .mindmap),
   ("timeline", .timeline),
   ("sankey-beta", .sankeyBeta),
   ("xychart-beta", .xychartBeta),
   ("block-beta", .blockBeta),
   ("architecture-beta", .architectureBeta)]

def matchDiagramTypeGo : List (String × DiagramType) → List Char → Option DiagramType
  | [], _ => none
  | (kw, t) :: rest, cs => if kwMatch kw.data cs then some t else matchDiagramTypeGo rest cs

def matchDiagramTypeL (cs : List Char) : Option DiagramType :=
  matchDiagramTypeGo DIAGRAM_PATTERNS cs

def blockKindStr : BlockKind → String
  | .critical => "critical"
  | .alt => "alt"
  | .loop => "loop"
  | .par => "par"
  | .opt => "opt"
  | .break_ => "break"
  | .rect => "rect"
  | .subgraph => "subgraph"

/-- Keyword-delimited block keywords, in the order of `BLOCK_KEYWORDS`. -/
def BLOCK_KEYWORDS : List BlockKind :=
  [.critical, .alt, .loop, .par, .opt, .break_, .rect, .subgraph]

def matchBlockKeywordGo : List BlockKind → List Char → Option BlockKind
  | [], _ => none
  | k :: rest, cs =>
    if kwMatch (blockKindStr k).data cs then some k else matchBlockKeywordGo rest cs

def matchBlockKeywordL (cs : List Char) : Option BlockKind :=
  matchBlockKeywordGo BLOCK_KEYWORDS cs

def braceBlockKindStr : BraceBlockKind → String
  | .state => "state"
  | .class_ => "class"
  | .namespace_ => "namespace"

def BRACE_BLOCK_KEYWORDS : List BraceBlockKind := [.state, .class_, .namespace_]

def INDENT_SENSITIVE_DIAGRAMS : List DiagramType := [.mindmap, .timeline]

def isIndentSensitive (diagramType : DiagramType) : Bool :=
  INDENT_SENSITIVE_DIAGRAMS.contains diagramType

/-! ## Brace-block start matcher (rules.ts `matchBraceBlockStart`)

The pattern `^kw\s+(.+?)\s*\x7b\s*$` is reproduced with explicit
backtracking: the `\s+` run is consumed greedily and given back one
character at a time, and the lazy name grows one character at a time
until the remainder (after skipping white space) is a brace followed
only by white space.  The `\s*` pieces before the brace and at the end
are deterministic because a brace is not white space. -/

def braceNameLoop (acc : List Char) : List Char → Option (List Char)
  | [] => none
  | c :: rest =>
    if !(dotOk c) then none
    else
      let acc' := acc ++ [c]
      match rest.dropWhile isJsWs with
      | '\x7b' :: tail => if tail.all isJsWs then some acc' else braceNameLoop acc' rest
      | _ => braceNameLoop acc' rest

def braceWsLoop : List Char → List Char → Option (List Char)
  | [], _ => none
  | w :: wsRev, rem =>
    match braceNameLoop [] rem with
    | some n => some n
    | none => braceWsLoop wsRev (w :: rem)

def matchBraceBlockStartGo : List BraceBlockKind → List Char → Option (BraceBlockKind × String)
  | [], _ => none
  | k :: rest, cs =>
    let kw := (braceBlockKindStr k).data
    if kw.isPrefixOf cs then
      let afterKw := cs.drop kw.length
      let wsRun := afterKw.takeWhile isJsWs
      match braceWsLoop wsRun.reverse (afterKw.dropWhile isJsWs) with
      | some name => some (k, String.mk (jsTrimL name))
      | none => matchBraceBlockStartGo rest cs
    else matchBraceBlockStartGo rest cs

def matchBraceBlockStartL (cs : List Char) : Option (BraceBlockKind × String) :=
  matchBraceBlockStartGo BRACE_BLOCK_KEYWORDS cs

/-! ## Arrow-message matcher (rules.ts `ARROW_PATTERN` / `matchArrowMessage`)

The pattern is
`^(.+?)\s*((?:<<-->>|<<->>|-->>|->>|-->|->|--x|-x|--\)|-\))[+-]?)\s*(.+?)\s*:\s*(.*)?$`.
The search below enumerates the regex engine's backtracking choices in
the engine's order: the lazy `from` group grows from one character; the
`\s*` before the operator is deterministic (no operator starts with
white space); the alternation is tried in written order and the optional
`[+-]` suffix greedily; the `\s*` before the lazy `to` group is greedy
with give-back (the `.` of `to` can match white space); `to` grows until
the remainder, after deterministic white-space skipping, starts with a
colon and the text after the colon (minus leading white space) contains
no line terminator, which makes `\s*(.*)?$` succeed. -/

def arrowAlts : List (List Char) :=
  ["<<-->>", "<<->>", "-->>", "->>", "-->", "->", "--x", "-x", "--)", "-)"].map String.data

def msgCheck (after : List Char) : Option (List Char) :=
  let m := after.dropWhile isJsWs
  if m.all dotOk then some m else none

def toLoop (acc : List Char) : List Char → Option (List Char × List Char)
  | [] => none
  | c :: rest =>
    if !(dotOk c) then none
    else
      let acc' := acc ++ [c]
      match rest.dropWhile isJsWs with
      | ':' :: after =>
        (match msgCheck after with
         | some m => some (acc', m)
         | none => toLoop acc' rest)
      | _ => toLoop acc' rest

def wsToLoop : List Char → List Char → Option (List Char × List Char)
  | [], rem => toLoop [] rem
  | w :: wsRev, rem =>
    match toLoop [] rem with
    | some r => some r
    | none => wsToLoop wsRev (w :: rem)

def suffixCandidates (rest : List Char) : List (List Char × List Char) :=
  match rest with
  | c :: cs => if c = '+' || c = '-' then [([c], cs), ([], rest)] else [([], rest)]
  | [] => [([], [])]

def tryCandidates (alt : List Char) :
    List (List Char × List Char) → Option (List Char × List Char × List Char)
  | [] => none
  | (suf, rest2) :: more =>
    match wsToLoop (rest2.takeWhile isJsWs).reverse (rest2.dropWhile isJsWs) with
    | some (toStr, msg) => some (alt ++ suf, toStr, msg)
    | none => tryCandidates alt more

def tryAlts : List (List Char) → List Char → Option (List Char × List Char × List Char)
  | [], _ => none
  | alt :: alts, rest =>
    if alt.isPrefixOf rest then
      match tryCandidates alt (suffixCandidates (rest.drop alt.length)) with
      | some r => some r
      | none => tryAlts alts rest
    else tryAlts alts rest

structure ArrowMatch where
  from_ : String
  arrow : String
  to_ : String
  message : String
  deriving DecidableEq, Repr

def fromLoop (acc : List Char) : List Char → Option (List Char × List Char × List Char × List Char)
  | [] => none
  | c :: rest =>
    if !(dotOk c) then none
    else
      let acc' := acc ++ [c]
      match tryAlts arrowAlts (rest.dropWhile isJsWs) with
      | some (ar, toStr, msg) => some (acc', ar, toStr, msg)
      | none => fromLoop acc' rest

/-- The regex produces the canonical (leftmost, lazy) match; the extra
rejection of messages that begin with `::` (flowchart class-assignment
syntax) is applied to the raw fourth group afterwards, exactly as in
`matchArrowMessage`. -/
def matchArrowMessageL (cs : List Char) : Option ArrowMatch :=
  match fromLoop [] cs with
  | none => none
  | some (f, ar, toStr, msgGroup) =>
    match msgGroup with
    | ':' :: ':' :: _ => none
    | _ =>
      some ⟨String.mk (jsTrimL f), String.mk ar, String.mk (jsTrimL toStr),
            String.mk (jsTrimL msgGroup)⟩

/-! ## Classifier (parser.ts) -/

def topBlockKind (openBlocks : List BlockKind) : Option BlockKind :=
  openBlocks.head?

/-- Label after a continuation/block keyword: `trimmed.slice(n).trim()`
with the JS `|| undefined` turning an empty label into `none`. -/
def labelFrom (cs : List Char) (n : Nat) : Option String :=
  let l := jsTrimL (cs.drop n)
  if l = [] then none else some (String.mk l)

/-- Tail of `parseLine` after the blank/comment/directive/diagram-decl
checks (the source falls through in this order). -/
def parseLineRest (cs : List Char) (currentDiagramType : DiagramType)
    (openBlocks : List BlockKind) : Statement :=
  if cs = "end".data then
    (if openBlocks ≠ [] then .blockEnd "end" else .genericLine (String.mk cs))
  else if cs = ['\x7d'] then .braceBlockEnd "\x7d"
  else if kwMatch "option".data cs ∧ topBlockKind openBlocks = some .critical then
    .blockOption (labelFrom cs 6) (String.mk cs)
  else if kwMatch "else".data cs ∧ topBlockKind openBlocks = some .alt then
    .blockElse (labelFrom cs 4) (String.mk cs)
  else if kwMatch "and".data cs ∧ topBlockKind openBlocks = some .par then
    .blockAnd (labelFrom cs 3) (String.mk cs)
  else
    match matchBlockKeywordL cs with
    | some k => .blockStart k (labelFrom cs (blockKindStr k).length) (String.mk cs)
    | none =>
      match matchBraceBlockStartL cs with
      | some (k, name) => .braceBlockStart k name (String.mk cs)
      | none =>
        if kwMatch "participant".data cs ∨ kwMatch "actor".data cs then
          .participant (String.mk cs)
        else if noteMatch cs then .note (String.mk cs)
        else if currentDiagramType = .sequenceDiagram then
          match matchArrowMessageL cs with
          | some a => .arrowMessage a.from_ a.arrow a.to_ a.message (String.mk cs)
          | none => .genericLine (String.mk cs)
        else .genericLine (String.mk cs)

/-- Classify one trimmed line (`parseLine`). -/
def parseLineL (cs : List Char) (currentDiagramType : DiagramType)
    (openBlocks : List BlockKind) : Statement :=
  if cs = [] then .blankLine ""
  else if "%%".data.isPrefixOf cs ∧ ¬ "%%\x7b".data.isPrefixOf cs then .comment (String.mk cs)
  else if "%%\x7b".data.isPrefixOf cs then .directive (String.mk cs)
  else
    match matchDiagramTypeL cs with
    | some dt =>
      if currentDiagramType = .unknown then .diagramDecl dt (String.mk cs)
      else parseLineRest cs currentDiagramType openBlocks
    | none => parseLineRest cs currentDiagramType openBlocks

/-- Update of the tracked diagram type after a statement: the source
guard is `statement.type === diagram-decl && diagramType === unknown`. -/
def nextDiagramType (st : Statement) (dt : DiagramType) : DiagramType :=
  match st with
  | .diagramDecl t _ => if dt = .unknown then t else dt
  | _ => dt

/-- Update of the open-block stack after a statement (`parse` pushes on
`block-start` and pops on `block-end` when the stack is non-empty). -/
def nextStack (st : Statement) (stack : List BlockKind) : List BlockKind :=
  match st with
  | .blockStart k _ _ => k :: stack
  | .blockEnd _ => if stack ≠ [] then stack.tail else stack
  | _ => stack

/-- The classification loop of `parse`: one statement per line, threading
the diagram type and the open-block stack, returning the statement list
and the final diagram type. -/
def parseGo : List (List Char) → DiagramType → List BlockKind → List Statement × DiagramType
  | [], dt, _ => ([], dt)
  | l :: rest, dt, stack =>
    let st := parseLineL (jsTrimL l) dt stack
    let r := parseGo rest (nextDiagramType st dt) (nextStack st stack)
    (st :: r.1, r.2)

def parse (input : String) : Diagram :=
  let r := parseGo (splitNlL input.data) .unknown []
  ⟨r.2, r.1⟩

def detectGo : List (List Char) → DiagramType
  | [] => .unknown
  | l :: rest =>
    let t := jsTrimL l
    if t = [] ∨ "%%".data.isPrefixOf t then detectGo rest
    else
      match matchDiagramTypeL t with
      | some dt => dt
      | none => detectGo rest

def detectDiagramType (input : String) : DiagramType :=
  detectGo (splitNlL input.data)

/-! ## Content normalizers (formatter.ts) -/

/-- The replacement `/  +/g -> ' '` collapses every maximal run of two or
more spaces to a single space; tracking whether the previous character
was a space implements exactly that. -/
def collapseGo : Bool → List Char → List Char
  | _, [] => []
  | prevSp, c :: cs =>
    if c = ' ' then
      (if prevSp then collapseGo true cs else ' ' :: collapseGo true cs)
    else c :: collapseGo false cs

def collapseSpacesL (cs : List Char) : List Char := collapseGo false cs

/-- Depth-counting scan for the matching close bracket, mirroring the
inner `while` loop of `normalizeBracketPair`: returns the characters
strictly between the brackets and the characters after the close. -/
def scanClose (o cl : Char) : List Char → Nat → Option (List Char × List Char)
  | [], _ => none
  | c :: cs, depth =>
    let d' := if c = o then depth + 1 else if c = cl then depth - 1 else depth
    if d' = 0 then some ([], cs)
    else
      match scanClose o cl cs d' with
      | some (inner, rest) => some (c :: inner, rest)
      | none => none

/-- Outer loop of `normalizeBracketPair`; the fuel dominates the number
of loop iterations (each consumes at least one character), and every
call below passes the list length as fuel. -/
def normBrGo (o cl : Char) : Nat → List Char → List Char
  | 0, cs => cs
  | _ + 1, [] => []
  | fuel + 1, x :: xs =>
    if x = o then
      match xs with
      | ' ' :: _ =>
        (match scanClose o cl xs 1 with
         | some (inner, rest) => o :: (jsTrimL inner ++ cl :: normBrGo o cl fuel rest)
         | none => x :: normBrGo o cl fuel xs)
      | _ => x :: normBrGo o cl fuel xs
    else x :: normBrGo o cl fuel xs

def normalizeBracketPair (cs : List Char) (o cl : Char) : List Char :=
  normBrGo o cl (cs.length + 1) cs

/-- Matching step for `/\|\s+([^|]*?)\s*\|/`: after an opening pipe whose
next character is white space, the inner text runs to the next pipe
(the character class forbids pipes inside); the replacement re-emits the
pipes around the trimmed inner text. -/
def pipeSplit : List Char → Option (List Char × List Char)
  | [] => none
  | c :: rest =>
    if c = '|' then some ([], rest)
    else
      match pipeSplit rest with
      | some (inner, after) => some (c :: inner, after)
      | none => none

def pipeMatch (cs : List Char) : Option (List Char × List Char) :=
  match cs with
  | c :: _ => if isJsWs c then pipeSplit cs else none
  | [] => none

def pipeGo : Nat → List Char → List Char
  | 0, cs => cs
  | _ + 1, [] => []
  | fuel + 1, c :: cs =>
    if c = '|' then
      match pipeMatch cs with
      | some (inner, rest) => '|' :: (jsTrimL inner ++ '|' :: pipeGo fuel rest)
      | none => c :: pipeGo fuel cs
    else c :: pipeGo fuel cs

def normPipesL (cs : List Char) : List Char := pipeGo (cs.length + 1) cs

/-- The `CONTENT_NORMALIZERS` pipeline, applied in order. -/
def normalizeContent (content : String) : String :=
  let l1 := collapseSpacesL content.data
  let l2 := normalizeBracketPair l1 '[' ']'
  let l3 := normalizeBracketPair l2 '\x7b' '\x7d'
  let l4 := normalizeBracketPair l3 '(' ')'
  String.mk (normPipesL l4)

/-! ## Renderer (formatter.ts) -/

/-- Statement kinds with a bespoke formatter in `STATEMENT_FORMATTERS`
or listed in `NORMALIZABLE_TYPES`; everything else (note the absent
`block-and`) falls back to the raw content. -/
def formatStatement (stmt : Statement) : String :=
  match stmt with
  | .blockStart k label _ =>
    (match label with
     | some l => blockKindStr k ++ " " ++ l
     | none => blockKindStr k)
  | .braceBlockStart k name _ => braceBlockKindStr k ++ " " ++ name ++ " \x7b"
  | .blockOption label _ =>
    (match label with
     | some l => "option " ++ l
     | none => "option")
  | .blockElse label _ =>
    (match label with
     | some l => "else " ++ l
     | none => "else")
  | .arrowMessage f a t m _ =>
    if m = "" then f ++ " " ++ a ++ " " ++ t ++ ":"
    else f ++ " " ++ a ++ " " ++ t ++ ": " ++ String.mk (collapseSpacesL m.data)
  | .genericLine c => normalizeContent c
  | .participant c => normalizeContent c
  | .note c => normalizeContent c
  | other => other.content

def COLUMN_ZERO_TYPES : List StatementType :=
  [.diagramDecl, .directive, .blockStart, .blockOption, .blockElse, .blockEnd]

/-- Indentation depth from `getIndentDepth` (only the statement's type is
consulted). -/
def getIndentDepth (t : StatementType) (seenDiagramDecl : Bool)
    (braceBlockDepth : Nat) : Nat :=
  if t = .diagramDecl ∨ t = .directive then 0
  else if COLUMN_ZERO_TYPES.contains t then braceBlockDepth
  else if t = .braceBlockStart ∨ t = .braceBlockEnd then braceBlockDepth
  else if braceBlockDepth > 0 then braceBlockDepth
  else if seenDiagramDecl then 1
  else 0

def BLANK_BEFORE_BLOCK_TYPES : List StatementType :=
  [.diagramDecl, .genericLine, .arrowMessage, .participant, .note,
   .blockEnd, .braceBlockEnd]

def shouldInsertBlankBefore (t : StatementType)
    (lastNonBlankType : Option StatementType) : Bool :=
  match lastNonBlankType with
  | none => false
  | some lt =>
    if t = .blockStart ∨ t = .braceBlockStart then BLANK_BEFORE_BLOCK_TYPES.contains lt
    else false

def repeatIndent (ind : List Char) : Nat → List Char
  | 0 => []
  | n + 1 => ind ++ repeatIndent ind n

/-- Main loop of `format`: output lines are accumulated as char lists;
`rest = []` plays the role of the source's `i === statements.length - 1`
check in the blank-line branch. -/
def formatGo (ind : List Char) :
    List Statement → Nat → Bool → Option StatementType → List (List Char) → List (List Char)
  | [], _, _, _, lines => lines
  | stmt :: rest, braceDepth, seenDecl, lastNB, lines =>
    if stmtType stmt = .blankLine then
      if lastNB = some .blankLine ∨ rest = [] then
        formatGo ind rest braceDepth seenDecl lastNB lines
      else if lines = [] then formatGo ind rest braceDepth seenDecl lastNB lines
      else formatGo ind rest braceDepth seenDecl (some .blankLine) (lines ++ [[]])
    else
      let lines1 :=
        if shouldInsertBlankBefore (stmtType stmt) lastNB ∧ lines ≠ [] ∧
            lines.getLast? ≠ some [] then
          lines ++ [[]]
        else lines
      let bd1 := if stmtType stmt = .braceBlockEnd ∧ braceDepth > 0 then braceDepth - 1
        else braceDepth
      let depth := getIndentDepth (stmtType stmt) seenDecl bd1
      let contentL := (formatStatement stmt).data
      let formatted := if depth > 0 then repeatIndent ind depth ++ contentL else contentL
      let seenDecl' := if stmtType stmt = .diagramDecl then true else seenDecl
      let bd2 := if stmtType stmt = .braceBlockStart then bd1 + 1 else bd1
      formatGo ind rest bd2 seenDecl' (some (stmtType stmt)) (lines1 ++ [formatted])

def joinNlL : List (List Char) → List Char
  | [] => []
  | [l] => l
  | l :: ls => l ++ '\n' :: joinNlL ls

/-- Render a parsed diagram (`format`), resolving option defaults
(`indentSize` 4, `useTabs` false) and joining with a single trailing
line feed. -/
def format (diagram : Diagram) (options : FormatOptions) : String :=
  let indentSize := options.indentSize.getD 4
  let useTabs := options.useTabs.getD false
  let ind : List Char := if useTabs then ['\t'] else List.replicate indentSize ' '
  let lines := formatGo ind diagram.statements 0 false none []
  String.mk (joinNlL lines) ++ "\n"

/-! ## Pipeline facade (index.ts) -/

def ensureTrailingNewline (input : String) : String :=
  if input.data.getLast? = some '\n' then input else input ++ "\n"

def formatMermaid (input : String) (options : FormatOptions) : String :=
  let diagramType := detectDiagramType input
  if isIndentSensitive diagramType then ensureTrailingNewline input
  else format (parse input) options

def defaultOpts : FormatOptions := ⟨none, none⟩

/-! ## Counting helpers for the invariant claims -/

/-- Number of statements of a given kind in a list. -/
def countType (t : StatementType) : List Statement → Nat
  | [] => 0
  | s :: rest => (if stmtType s = t then 1 else 0) + countType t rest

/-! ## Claim theorems -/

/-- C1: the full pipeline is NOT idempotent.  On the flowchart input
`flowchart TD` / `[ [ x ] ]` (a non-indent-sensitive dialect) one
application of `formatMermaid` yields a body line `[[ x ]]` — the
bracket normalizer trims padding of the outer pair but never revisits
the inner pair — and a second application further rewrites it to
`[[x]]`, so `formatMermaid (formatMermaid x) ≠ formatMermaid x`. -/
theorem idempotence_fails_on_nested_bracket_padding :
    detectDiagramType "flowchart TD\n[ [ x ] ]" = .flowchart ∧
    formatMermaid "flowchart TD\n[ [ x ] ]" defaultOpts = "flowchart TD\n    [[ x ]]\n" ∧
    formatMermaid "flowchart TD\n    [[ x ]]\n" defaultOpts = "flowchart TD\n    [[x]]\n" ∧
    formatMermaid (formatMermaid "flowchart TD\n[ [ x ] ]" defaultOpts) defaultOpts ≠
      formatMermaid "flowchart TD\n[ [ x ] ]" defaultOpts := by
  refine ⟨by decide, by decide, by decide, by decide⟩

/-- C2: on the nested-block scenario the classifier does produce
`block-start` / `block-and` / `block-end`, the `par` and `end` lines
render at depth 0, the arrow lines at depth 1, and no blank line is
inserted between `par Branch A` and its first arrow line — but the
`and Branch B` continuation renders at depth 1 (indented by four
spaces), not at the current brace depth 0: `block-and` is missing from
`COLUMN_ZERO_TYPES`, so it falls into the generic depth rule. -/
theorem par_and_scenario_rendering :
    (parse "sequenceDiagram\npar Branch A\n    A->>B: hello\nand Branch B\n    B->>A: world\nend").statements.map stmtType =
      [.diagramDecl, .blockStart, .arrowMessage, .blockAnd, .arrowMessage, .blockEnd] ∧
    formatMermaid "sequenceDiagram\npar Branch A\n    A->>B: hello\nand Branch B\n    B->>A: world\nend" defaultOpts =
      "sequenceDiagram\n\npar Branch A\n    A ->> B: hello\n    and Branch B\n    B ->> A: world\nend\n" := by
  refine ⟨by decide, by decide⟩

/-- C3: the output does not always avoid a double trailing line feed.
On input ending with two or more blank lines the first blank of the
trailing run is emitted (only a blank that is the literal last statement
is skipped), so the rendered text ends with `\n\n`; the repository's own
test "removes trailing blank lines" expects `sequenceDiagram\n    A ->>
B: hello\n` here. -/
theorem trailing_newline_violation :
    formatMermaid "sequenceDiagram\n    A->>B: hello\n\n\n" defaultOpts =
      "sequenceDiagram\n    A ->> B: hello\n\n" ∧
    (formatMermaid "sequenceDiagram\n    A->>B: hello\n\n\n" defaultOpts).data.getLast? =
      some '\n' := by
  refine ⟨by decide, by decide⟩

/-- C4: interior runs of blank lines collapse to one blank output line
and leading blank runs vanish, but a trailing run of two or more blank
input lines leaves one blank output line (only a blank that is the very
last statement is dropped), contradicting the removal of trailing blank
runs. -/
theorem blank_line_policy_violation :
    formatMermaid "\n\nflowchart TD\nA\n\n\nB" defaultOpts = "flowchart TD\n    A\n\n    B\n" ∧
    formatMermaid "flowchart TD\nA --> B\n\n\n" defaultOpts = "flowchart TD\n    A --> B\n\n" := by
  refine ⟨by decide, by decide⟩

/-- C5 counterexample: a line starting with the word `else` whose
context stack has no matching `alt` on top is NOT always classified as
generic-line: inside a `sequenceDiagram` the line `else A->>B: hi`
(with no open block at all) matches the arrow pattern and is classified
as an arrow message, whose rendering also rewrites the content. -/
theorem else_line_not_generic_counterexample :
    stmtType ((parse "sequenceDiagram\nelse A->>B: hi").statements.getD 1 default) =
      .arrowMessage ∧
    formatMermaid "sequenceDiagram\nelse A->>B: hi" defaultOpts =
      "sequenceDiagram\n    else A ->> B: hi\n" := by
  refine ⟨by decide, by decide⟩

/-- C7: arrow-message normalization inside a `sequenceDiagram`:
`A->>B:hello` renders as `A ->> B: hello`; `A  ->>  B:  hello  world`
renders as `A ->> B: hello world`; and `A --> B:::warning` is rejected
by the arrow matcher (its post-colon segment starts with `::`), is
classified generic-line, and renders with unchanged content. -/
theorem arrow_normalization_examples :
    formatMermaid "sequenceDiagram\nA->>B:hello" defaultOpts =
      "sequenceDiagram\n    A ->> B: hello\n" ∧
    formatMermaid "sequenceDiagram\nA  ->>  B:  hello  world" defaultOpts =
      "sequenceDiagram\n    A ->> B: hello world\n" ∧
    matchArrowMessageL "A --> B:::warning".data = none ∧
    stmtType ((parse "sequenceDiagram\nA --> B:::warning").statements.getD 1 default) =
      .genericLine ∧
    formatMermaid "sequenceDiagram\nA --> B:::warning" defaultOpts =
      "sequenceDiagram\n    A --> B:::warning\n" := by
  refine ⟨by decide, by decide, by decide, by decide, by decide⟩

/-- C8 counterexample: a later dialect-looking line is not always
classified as generic-line: in a `sequenceDiagram`, the line
`graph A->>B: hi` matches the `graph` dialect signature, is not a
second declaration, but classifies as an arrow message rather than a
generic line. -/
theorem later_dialect_line_counterexample :
    matchDiagramTypeL "graph A->>B: hi".data = some .graph ∧
    (parse "sequenceDiagram\ngraph A->>B: hi").statements.map stmtType =
      [.diagramDecl, .arrowMessage] := by
  refine ⟨by decide, by decide⟩

/-! ## Structural lemmas about the classifier -/

/-- Every branch of the post-declaration classifier tail returns a
statement that is not a diagram declaration. -/
theorem parseLineRest_ne_decl (cs : List Char) (dt : DiagramType)
    (stack : List BlockKind) : stmtType (parseLineRest cs dt stack) ≠ .diagramDecl := by
  unfold parseLineRest
  repeat' split
  all_goals simp [stmtType]

/-- A diagram declaration is only produced while the tracked diagram
type is still unknown, and its type is the matched signature. -/
theorem parseLineL_decl (cs : List Char) (dt : DiagramType) (stack : List BlockKind)
    (t : DiagramType) (c : String) :
    parseLineL cs dt stack = .diagramDecl t c →
    dt = .unknown ∧ matchDiagramTypeL cs = some t := by
  intro h
  unfold parseLineL at h
  split at h
  · exact Statement.noConfusion h
  · split at h
    · exact Statement.noConfusion h
    · split at h
      · exact Statement.noConfusion h
      · split at h
        · split at h
          · rename_i heq hdt
            injection h with h1 h2
            exact ⟨hdt, h1 ▸ heq⟩
          · have hne := parseLineRest_ne_decl cs dt stack
            rw [h] at hne
            exact absurd rfl hne
        · have hne := parseLineRest_ne_decl cs dt stack
          rw [h] at hne
          exact absurd rfl hne

/-- Exhaustive shape of `parseLineL`: a line is blank, comment,
directive, diagram declaration, or is classified by the fall-through
tail `parseLineRest`. -/
theorem parseLineL_cases (cs : List Char) (dt : DiagramType) (stack : List BlockKind) :
    parseLineL cs dt stack = .blankLine "" ∨
    parseLineL cs dt stack = .comment (String.mk cs) ∨
    parseLineL cs dt stack = .directive (String.mk cs) ∨
    (∃ t, parseLineL cs dt stack = .diagramDecl t (String.mk cs)) ∨
    parseLineL cs dt stack = parseLineRest cs dt stack := by
  unfold parseLineL
  repeat' split
  all_goals simp

/-- A bare `end` line classifies as `block-end` only while the keyword
block stack is non-empty. -/
theorem parseLineRest_blockEnd (cs : List Char) (dt : DiagramType)
    (stack : List BlockKind) :
    stmtType (parseLineRest cs dt stack) = .blockEnd → stack ≠ [] := by
  unfold parseLineRest
  repeat' split
  all_goals simp_all [stmtType]

/-- An `else` line classifies as a `block-else` continuation only when
the innermost open block is an `alt`. -/
theorem parseLineRest_blockElse (cs : List Char) (dt : DiagramType)
    (stack : List BlockKind) :
    stmtType (parseLineRest cs dt stack) = .blockElse → topBlockKind stack = some .alt := by
  unfold parseLineRest
  repeat' split
  all_goals simp_all [stmtType]

/-- An `option` line classifies as a `block-option` continuation only
when the innermost open block is a `critical`. -/
theorem parseLineRest_blockOption (cs : List Char) (dt : DiagramType)
    (stack : List BlockKind) :
    stmtType (parseLineRest cs dt stack) = .blockOption →
    topBlockKind stack = some .critical := by
  unfold parseLineRest
  repeat' split
  all_goals simp_all [stmtType]

/-- An `and` line classifies as a `block-and` continuation only when the
innermost open block is a `par`. -/
theorem parseLineRest_blockAnd (cs : List Char) (dt : DiagramType)
    (stack : List BlockKind) :
    stmtType (parseLineRest cs dt stack) = .blockAnd → topBlockKind stack = some .par := by
  unfold parseLineRest
  repeat' split
  all_goals simp_all [stmtType]

/-- Lift of `parseLineRest_blockEnd` through `parseLineL`. -/
theorem parseLineL_blockEnd (cs : List Char) (dt : DiagramType) (stack : List BlockKind) :
    stmtType (parseLineL cs dt stack) = .blockEnd → stack ≠ [] := by
  intro h
  rcases parseLineL_cases cs dt stack with h1 | h1 | h1 | ⟨t, h1⟩ | h1 <;> rw [h1] at h
  · exact absurd h (by simp [stmtType])
  · exact absurd h (by simp [stmtType])
  · exact absurd h (by simp [stmtType])
  · exact absurd h (by simp [stmtType])
  · exact parseLineRest_blockEnd cs dt stack h

/-- Lift of `parseLineRest_blockElse` through `parseLineL`. -/
theorem parseLineL_blockElse (cs : List Char) (dt : DiagramType) (stack : List BlockKind) :
    stmtType (parseLineL cs dt stack) = .blockElse → topBlockKind stack = some .alt := by
  intro h
  rcases parseLineL_cases cs dt stack with h1 | h1 | h1 | ⟨t, h1⟩ | h1 <;> rw [h1] at h
  · exact absurd h (by simp [stmtType])
  · exact absurd h (by simp [stmtType])
  · exact absurd h (by simp [stmtType])
  · exact absurd h (by simp [stmtType])
  · exact parseLineRest_blockElse cs dt stack h

/-- Lift of `parseLineRest_blockOption` through `parseLineL`. -/
theorem parseLineL_blockOption (cs : List Char) (dt : DiagramType) (stack : List BlockKind) :
    stmtType (parseLineL cs dt stack) = .blockOption → topBlockKind stack = some .critical := by
  intro h
  rcases parseLineL_cases cs dt stack with h1 | h1 | h1 | ⟨t, h1⟩ | h1 <;> rw [h1] at h
  · exact absurd h (by simp [stmtType])
  · exact absurd h (by simp [stmtType])
  · exact absurd h (by simp [stmtType])
  · exact absurd h (by simp [stmtType])
  · exact parseLineRest_blockOption cs dt stack h

/-- Lift of `parseLineRest_blockAnd` through `parseLineL`. -/
theorem parseLineL_blockAnd (cs : List Char) (dt : DiagramType) (stack : List BlockKind) :
    stmtType (parseLineL cs dt stack) = .blockAnd → topBlockKind stack = some .par := by
  intro h
  rcases parseLineL_cases cs dt stack with h1 | h1 | h1 | ⟨t, h1⟩ | h1 <;> rw [h1] at h
  · exact absurd h (by simp [stmtType])
  · exact absurd h (by simp [stmtType])
  · exact absurd h (by simp [stmtType])
  · exact absurd h (by simp [stmtType])
  · exact parseLineRest_blockAnd cs dt stack h

/-- Statements other than declarations leave the tracked diagram type
unchanged. -/
theorem nextDiagramType_of_ne (st : Statement) (dt : DiagramType)
    (h : stmtType st ≠ .diagramDecl) : nextDiagramType st dt = dt := by
  cases st <;> simp_all [stmtType, nextDiagramType]

/-- The matched dialect signatures never carry the `unknown` tag. -/
theorem matchDiagramTypeGo_ne_unknown (ps : List (String × DiagramType)) (cs : List Char)
    (t : DiagramType) (hps : ps.all (fun p => p.2 != DiagramType.unknown) = true) :
    matchDiagramTypeGo ps cs = some t → t ≠ .unknown := by
  induction ps with
  | nil => intro h; exact absurd h (by simp [matchDiagramTypeGo])
  | cons p rest ih =>
    simp only [List.all_cons, Bool.and_eq_true, bne_iff_ne] at hps
    intro h
    unfold matchDiagramTypeGo at h
    split at h
    · cases h
      simpa using hps.1
    · exact ih (by simpa using hps.2) h

/-- Specialization to the concrete signature table. -/
theorem matchDiagramTypeL_ne_unknown (cs : List Char) (t : DiagramType) :
    matchDiagramTypeL cs = some t → t ≠ .unknown := by
  intro h
  exact matchDiagramTypeGo_ne_unknown DIAGRAM_PATTERNS cs t (by decide) h

/-! ## Invariants of the classification loop -/

/-- One statement is produced per input line. -/
theorem parseGo_length (lines : List (List Char)) :
    ∀ (dt : DiagramType) (stack : List BlockKind),
    (parseGo lines dt stack).1.length = lines.length := by
  induction lines with
  | nil => intro dt stack; simp [parseGo]
  | cons l rest ih => intro dt stack; simp [parseGo, ih]

/-- The split of a char list at line feeds yields one piece more than
the number of line feeds. -/
theorem splitNlL_length (cs : List Char) :
    (splitNlL cs).length = cs.count '\n' + 1 := by
  induction cs with
  | nil => simp [splitNlL]
  | cons c cs ih =>
    by_cases hc : c = '\n'
    · subst hc
      simp [splitNlL, ih, List.count_cons]
    · have hne : splitNlL cs ≠ [] := by
        cases cs with
        | nil => simp [splitNlL]
        | cons d ds =>
          unfold splitNlL
          split <;> (try split) <;> simp
      rw [List.count_cons]
      unfold splitNlL
      simp only [if_neg hc]
      match hsp : splitNlL cs with
      | [] => exact absurd hsp hne
      | l :: ls =>
        rw [hsp] at ih
        simp only [List.length_cons] at ih ⊢
        have hb : (c == '\n') = false := by simpa using hc
        rw [hb]
        simpa using ih

/-- Inversion for declaration statements. -/
theorem stmtType_decl_inv (st : Statement) (h : stmtType st = .diagramDecl) :
    ∃ t c, st = .diagramDecl t c := by
  cases st <;> simp_all [stmtType]

/-- Main invariant of the classification loop for declarations: once the
tracked diagram type is known no further declaration is emitted, and
from the unknown state at most one declaration is ever emitted (the
final type is unknown exactly when none was). -/
theorem parseGo_decl_invariant (lines : List (List Char)) :
    ∀ (dt : DiagramType) (stack : List BlockKind),
    (dt ≠ .unknown →
      countType .diagramDecl (parseGo lines dt stack).1 = 0 ∧
      (parseGo lines dt stack).2 = dt) ∧
    (dt = .unknown →
      countType .diagramDecl (parseGo lines dt stack).1 ≤ 1 ∧
      ((parseGo lines dt stack).2 = .unknown ↔
        countType .diagramDecl (parseGo lines dt stack).1 = 0)) := by
  induction lines with
  | nil =>
    intro dt stack
    constructor
    · intro _; exact ⟨rfl, rfl⟩
    · intro hdt
      refine ⟨by simp [parseGo, countType], ?_⟩
      simp [parseGo, countType, hdt]
  | cons l rest ih =>
    intro dt stack
    by_cases hd : stmtType (parseLineL (jsTrimL l) dt stack) = .diagramDecl
    · obtain ⟨t, c, hst⟩ := stmtType_decl_inv _ hd
      obtain ⟨hdtu, hmt⟩ := parseLineL_decl (jsTrimL l) dt stack t c hst
      have htne : t ≠ .unknown := matchDiagramTypeL_ne_unknown (jsTrimL l) t hmt
      constructor
      · intro hne; exact absurd hdtu hne
      · intro _
        subst hdtu
        have hnd : nextDiagramType (parseLineL (jsTrimL l) .unknown stack) .unknown = t := by
          rw [hst]; simp [nextDiagramType]
        have hrest := (ih t (nextStack (parseLineL (jsTrimL l) .unknown stack) stack)).1 htne
        simp only [parseGo, hnd]
        constructor
        · simp [countType, hd, hrest.1]
        · constructor
          · intro hu
            rw [hrest.2] at hu
            exact absurd hu htne
          · intro hcz
            simp [countType, hd, hrest.1] at hcz
    · have hnd : nextDiagramType (parseLineL (jsTrimL l) dt stack) dt = dt :=
        nextDiagramType_of_ne _ dt hd
      have ihr := ih dt (nextStack (parseLineL (jsTrimL l) dt stack) stack)
      constructor
      · intro hne
        have h1 := ihr.1 hne
        simp only [parseGo, hnd]
        exact ⟨by simp [countType, hd, h1.1], h1.2⟩
      · intro hdt
        have h2 := ihr.2 hdt
        simp only [parseGo, hnd]
        refine ⟨?_, ?_⟩
        · simpa [countType, hd] using h2.1
        · simpa [countType, hd] using h2.2

/-- Inversion for block-start statements. -/
theorem stmtType_blockStart_inv (st : Statement) (h : stmtType st = .blockStart) :
    ∃ k l c, st = .blockStart k l c := by
  cases st <;> simp_all [stmtType]

/-- Inversion for block-end statements. -/
theorem stmtType_blockEnd_inv (st : Statement) (h : stmtType st = .blockEnd) :
    ∃ c, st = .blockEnd c := by
  cases st <;> simp_all [stmtType]

/-- Statements other than block-start and block-end leave the stack
unchanged. -/
theorem nextStack_of_ne (st : Statement) (stack : List BlockKind)
    (h1 : stmtType st ≠ .blockStart) (h2 : stmtType st ≠ .blockEnd) :
    nextStack st stack = stack := by
  cases st <;> simp_all [stmtType, nextStack]

/-- Stack-counting invariant of the classification loop: in every prefix
of the emitted statements, the number of block-end statements is at most
the number of block-start statements plus the number of blocks already
open when the loop starts. -/
theorem parseGo_end_le_start (lines : List (List Char)) :
    ∀ (dt : DiagramType) (stack : List BlockKind) (n : Nat),
    countType .blockEnd ((parseGo lines dt stack).1.take n) ≤
    countType .blockStart ((parseGo lines dt stack).1.take n) + stack.length := by
  induction lines with
  | nil => intro dt stack n; simp [parseGo, countType]
  | cons l rest ih =>
    intro dt stack n
    cases n with
    | zero => simp [countType]
    | succ n =>
      have hstep :
          (parseGo (l :: rest) dt stack).1.take (n + 1) =
          parseLineL (jsTrimL l) dt stack ::
            ((parseGo rest (nextDiagramType (parseLineL (jsTrimL l) dt stack) dt)
              (nextStack (parseLineL (jsTrimL l) dt stack) stack)).1.take n) := by
        simp [parseGo]
      rw [hstep]
      by_cases hs : stmtType (parseLineL (jsTrimL l) dt stack) = .blockStart
      · obtain ⟨k, lb, c, hst⟩ := stmtType_blockStart_inv _ hs
        have hstack : nextStack (parseLineL (jsTrimL l) dt stack) stack = k :: stack := by
          rw [hst]; simp [nextStack]
        rw [hstack]
        have ihr := ih (nextDiagramType (parseLineL (jsTrimL l) dt stack) dt) (k :: stack) n
        simp only [countType, hs, List.length_cons] at ihr ⊢
        simp only [show (StatementType.blockEnd = StatementType.blockStart) = False by simp,
          show (StatementType.blockStart = StatementType.blockEnd) = False by simp,
          if_false, if_true, reduceIte] at *
        omega
      · by_cases he : stmtType (parseLineL (jsTrimL l) dt stack) = .blockEnd
        · have hnn : stack ≠ [] := parseLineL_blockEnd (jsTrimL l) dt stack he
          obtain ⟨c, hst⟩ := stmtType_blockEnd_inv _ he
          have hstack : nextStack (parseLineL (jsTrimL l) dt stack) stack = stack.tail := by
            rw [hst]; simp [nextStack, hnn]
          rw [hstack]
          have ihr := ih (nextDiagramType (parseLineL (jsTrimL l) dt stack) dt) stack.tail n
          have hlen : stack.tail.length = stack.length - 1 := by
            cases stack with
            | nil => simp
            | cons a as => simp
          have hpos : 1 ≤ stack.length := by
            cases stack with
            | nil => exact absurd rfl hnn
            | cons a as => simp
          rw [hlen] at ihr
          simp only [countType, he, hs, reduceIte] at ihr ⊢
          omega
        · have hstack : nextStack (parseLineL (jsTrimL l) dt stack) stack = stack :=
            nextStack_of_ne _ stack hs he
          rw [hstack]
          have ihr := ih (nextDiagramType (parseLineL (jsTrimL l) dt stack) dt) stack n
          simp only [countType, hs, he, reduceIte, if_false] at ihr ⊢
          omega

/-- C6: for every input whose detected dialect is indent-sensitive
(mindmap or timeline) and for any options, `formatMermaid` returns the
input itself when it already ends with a line feed and the input with a
single appended line feed otherwise; no character of the body changes. -/
theorem indent_sensitive_passthrough (x : String) (opts : FormatOptions)
    (h : detectDiagramType x = .mindmap ∨ detectDiagramType x = .timeline) :
    formatMermaid x opts = (if x.data.getLast? = some '\n' then x else x ++ "\n") := by
  have hs : isIndentSensitive (detectDiagramType x) = true := by
    rcases h with h | h <;> rw [h] <;> rfl
  simp [formatMermaid, hs, ensureTrailingNewline]

/-- C6 witness: a concrete mindmap input passes through with one line
feed appended. -/
theorem indent_sensitive_passthrough_witness :
    (detectDiagramType "mindmap\n  a" = .mindmap ∨
      detectDiagramType "mindmap\n  a" = .timeline) ∧
    formatMermaid "mindmap\n  a" defaultOpts = "mindmap\n  a\n" := by
  refine ⟨Or.inl (by decide), ?_⟩
  rw [indent_sensitive_passthrough "mindmap\n  a" defaultOpts (Or.inl (by decide))]
  decide

/-- C5 amended: a line starting with `else` / `option` / `and` is
classified as the corresponding continuation statement ONLY when the top
of the open-block stack is respectively `alt` / `critical` / `par`;
otherwise it is never a continuation and falls through to the remaining
classification rules — generally `generic-line`, as in the flowchart
example, where `else --> B` renders as ordinary (indented, unchanged)
content, though a later rule such as arrow-message matching may still
claim the line in a sequence diagram. -/
theorem continuation_keywords_context_sensitive :
    (∀ (cs : List Char) (dt : DiagramType) (stack : List BlockKind),
      stmtType (parseLineL cs dt stack) = .blockElse → topBlockKind stack = some .alt) ∧
    (∀ (cs : List Char) (dt : DiagramType) (stack : List BlockKind),
      stmtType (parseLineL cs dt stack) = .blockOption →
        topBlockKind stack = some .critical) ∧
    (∀ (cs : List Char) (dt : DiagramType) (stack : List BlockKind),
      stmtType (parseLineL cs dt stack) = .blockAnd → topBlockKind stack = some .par) ∧
    formatMermaid "flowchart TD\nsubgraph G\nelse --> B\nend" defaultOpts =
      "flowchart TD\n\nsubgraph G\n    else --> B\nend\n" ∧
    stmtType ((parse "flowchart TD\nsubgraph G\nelse --> B\nend").statements.getD 2 default) =
      .genericLine := by
  exact ⟨parseLineL_blockElse, parseLineL_blockOption, parseLineL_blockAnd,
    by decide, by decide⟩

/-- C5 amended witness: an `else` line inside an open `alt` block is a
`block-else`, and the theorem recovers the stack shape from that. -/
theorem continuation_keywords_context_sensitive_witness :
    stmtType (parseLineL "else x".data .unknown [.alt]) = .blockElse ∧
    topBlockKind [BlockKind.alt] = some .alt := by
  refine ⟨by decide, ?_⟩
  exact continuation_keywords_context_sensitive.1 "else x".data .unknown [.alt] (by decide)

/-- C8 amended: the statement sequence produced by `parse` contains at
most one diagram declaration; the final diagram type is `unknown`
exactly when no declaration was emitted (the first matching line while
the type is unknown fixes it, and no later line is ever classified as a
second declaration). -/
theorem at_most_one_diagram_decl (input : String) :
    countType .diagramDecl (parse input).statements ≤ 1 ∧
    ((parse input).type = .unknown ↔
      countType .diagramDecl (parse input).statements = 0) := by
  have h := (parseGo_decl_invariant (splitNlL input.data) .unknown []).2 rfl
  simpa [parse] using h

/-- C9: classification is total and per-line: for every input string,
`parse` returns exactly one statement per line of the input (the number
of line-feed-separated lines, i.e. the line-feed count plus one); all
embedded functions are total, so rendering any such diagram also always
produces a result. -/
theorem parse_total_one_statement_per_line (input : String) :
    (parse input).statements.length = input.data.count '\n' + 1 := by
  simp [parse, parseGo_length, splitNlL_length]

/-- C10: in every prefix of the statement sequence produced by `parse`,
block-end statements never outnumber block-start statements (a bare
`end` is classified block-end only while a keyword block is open). -/
theorem block_end_never_exceeds_block_start (input : String) (n : Nat) :
    countType .blockEnd ((parse input).statements.take n) ≤
    countType .blockStart ((parse input).statements.take n) := by
  have h := parseGo_end_le_start (splitNlL input.data) .unknown [] n
  simpa [parse] using h
